import Mathlib

/-!
Verification of the article data-access layer (`repository/article_repository.go`)
of the go-tech-blog repository, as a shallow embedding in Lean 4.

The relational backend is modelled as an explicit database state (lists of
table rows); each repository function becomes a Lean function over that
state.  Machine integers (Go `int`) are modelled as `Int`; timestamps
(`time.Time`) as `Int` instants; SQL `NULL`-able columns as `Option`.
Mutating operations run inside a transaction: statement or commit failures
are injected through an explicit `TxOutcome` value, and the returned
database state reflects rollback/commit exactly as the Go code drives them.
-/

namespace GoTechBlog

/-- A row of the `tags` table. -/
structure TagRow where
  id : Int
  name : String
deriving Repr, DecidableEq

/-- A row of the `writers` table.  The spec's schema is `writers(id, name)`;
the `name` column is modelled as nullable (`Option`) because
`ArticleGetWithWriterName` guards it with `COALESCE(writers.name, '')`. -/
structure WriterRow where
  id : Int
  name : Option String
deriving Repr, DecidableEq

/-- A row of the `articles` table:
`articles(id, title, body, created, updated, writer_id NULLABLE)`. -/
structure ArticleRow where
  id : Int
  title : String
  body : String
  created : Int
  updated : Int
  writerId : Option Int
deriving Repr, DecidableEq

/-- The in-memory `model.Writer` value (from `model/writer.go`), without the
transient `Articles` field (tagged `db:"-"`, never populated by this layer). -/
structure Writer where
  id : Int
  name : String
deriving Repr, DecidableEq

/-- Modelled from the spec: the `model.Article` entity struct
(`model/article.go` is not under `src/`).  Per the spec's data model it
carries identity, title, body, the two timestamps, a denormalized
writer display name (view-only, db tag `writer_name`), an optional nested
Writer (view-only, db tag `writer`), and a transient tag sequence. -/
structure Article where
  id : Int
  title : String
  body : String
  created : Int
  updated : Int
  writerName : String
  writer : Option Writer
  tags : List TagRow
deriving Repr, DecidableEq

/-- The Go zero value of `model.Article`. -/
def Article.zero : Article :=
  { id := 0, title := "", body := "", created := 0, updated := 0,
    writerName := "", writer := none, tags := [] }

/-- The database state: the four tables and the backend's `AUTO_INCREMENT`
counter for `articles.id`. -/
structure DB where
  articles : List ArticleRow
  writers : List WriterRow
  tags : List TagRow
  /-- The `article_tags` link table: `(article_id, tag_id)` pairs. -/
  articleTags : List (Int × Int)
  nextId : Int
deriving Repr, DecidableEq

/-- Errors surfaced by the layer: `notFound` is `sql.ErrNoRows` (zero rows
where one was expected); `backend` is any other backend failure, carried
unwrapped. -/
inductive RepoError where
  | notFound
  | backend (msg : String)
deriving Repr, DecidableEq

/-- The `sql.Result` of a mutating statement. -/
structure SqlResult where
  lastInsertId : Int
  rowsAffected : Int
deriving Repr, DecidableEq

/-- Injected backend behaviour for one transaction: whether the statement
(`Exec`/`NamedExec`) fails, and whether `tx.Commit()` fails. -/
structure TxOutcome where
  execErr : Option String
  commitErr : Option String
deriving Repr, DecidableEq

/-- `math.MaxInt32`, the substitute for a non-positive cursor. -/
def maxInt32 : Int := 2147483647

/-- The effective cursor after `ArticleListByCursor`'s edge-case guard:
`if cursor <= 0 { cursor = math.MaxInt32 }`. -/
def effectiveCursor (cursor : Int) : Int :=
  if cursor ≤ 0 then maxInt32 else cursor

/-- Descending-identity order used by `ORDER BY id desc`. -/
def idDesc (a b : ArticleRow) : Prop := b.id ≤ a.id

instance : DecidableRel idDesc := fun a b => inferInstanceAs (Decidable (b.id ≤ a.id))

instance : IsTotal ArticleRow idDesc := ⟨fun a b => (le_total b.id a.id)⟩

instance : IsTrans ArticleRow idDesc := ⟨fun _ _ _ h1 h2 => le_trans h2 h1⟩

/-- `ArticleListByCursor cursor`: substitutes `math.MaxInt32` for a
non-positive cursor, then runs
`SELECT * FROM articles WHERE id < ? ORDER BY id desc LIMIT 10`. -/
def ArticleListByCursor (db : DB) (cursor : Int) : List ArticleRow :=
  ((db.articles.filter
      (fun a => a.id < effectiveCursor cursor)).insertionSort idDesc).take 10

/-- `ArticleGetByID id`: `SELECT * FROM articles WHERE id = ?` through
`db.Get`, which scans the first row and yields `sql.ErrNoRows` when the
result set is empty. -/
def ArticleGetByID (db : DB) (id : Int) : Except RepoError ArticleRow :=
  match db.articles.find? (fun a => a.id == id) with
  | some a => .ok a
  | none => .error .notFound

/-- `ArticleDelete id`: `DELETE FROM articles WHERE id = ?` inside a
transaction; on statement error the transaction is rolled back and the error
returned; otherwise the function returns the value of `tx.Commit()`. -/
def ArticleDelete (db : DB) (id : Int) (o : TxOutcome) : DB × Option RepoError :=
  match o.execErr with
  | some e => (db, some (.backend e))
  | none =>
    match o.commitErr with
    | some e => (db, some (.backend e))
    | none => ({ db with articles := db.articles.filter (fun r => r.id ≠ id) }, none)

/-- `ArticleCreate article`: stamps `article.Created` and `article.Updated`
to the current time (mutating the caller's struct), then inside a transaction
runs `INSERT INTO articles (title, body, created, updated) VALUES (…)`.
On statement error it rolls back and returns the error; on success it calls
`tx.Commit()` but discards its result and returns `(res, nil)`.
Returns (database state, caller's article struct after the call, result). -/
def ArticleCreate (db : DB) (now : Int) (article : Article) (o : TxOutcome) :
    DB × Article × Except RepoError SqlResult :=
  let article := { article with created := now, updated := now }
  match o.execErr with
  | some e => (db, article, .error (.backend e))
  | none =>
    let res : SqlResult := { lastInsertId := db.nextId, rowsAffected := 1 }
    match o.commitErr with
    | some _ => (db, article, .ok res)
    | none =>
      let row : ArticleRow :=
        { id := db.nextId, title := article.title, body := article.body,
          created := now, updated := now, writerId := none }
      ({ db with articles := db.articles ++ [row], nextId := db.nextId + 1 },
       article, .ok res)

/-- `ArticleUpdate article`: stamps `article.Updated` to the current time
(mutating the caller's struct), then inside a transaction runs
`UPDATE articles SET title = …, body = …, updated = … WHERE id = …`.
On statement error it rolls back and returns the error; on success it calls
`tx.Commit()` but discards its result and returns `(res, nil)`. -/
def ArticleUpdate (db : DB) (now : Int) (article : Article) (o : TxOutcome) :
    DB × Article × Except RepoError SqlResult :=
  let article := { article with updated := now }
  match o.execErr with
  | some e => (db, article, .error (.backend e))
  | none =>
    let affected := (db.articles.filter (fun r => r.id == article.id)).length
    let res : SqlResult := { lastInsertId := 0, rowsAffected := affected }
    match o.commitErr with
    | some _ => (db, article, .ok res)
    | none =>
      let newRows := db.articles.map (fun r =>
        if r.id == article.id then
          { r with title := article.title, body := article.body, updated := now }
        else r)
      ({ db with articles := newRows }, article, .ok res)

/-- The row set of `FROM articles INNER JOIN writers ON writers.id =
articles.writer_id`.  SQL equality against a `NULL` `writer_id` is not
satisfied, so a row with `writer_id IS NULL` matches no writer. -/
def innerJoinWriters (db : DB) : List (ArticleRow × WriterRow) :=
  db.articles.flatMap (fun a =>
    (db.writers.filter (fun w => a.writerId == some w.id)).map (fun w => (a, w)))

/-- `ArticleGetWithWriterName id`:
`SELECT articles.id AS id, articles.title AS title,
COALESCE(writers.name, '') AS writer_name FROM articles INNER JOIN writers
ON writers.id = articles.writer_id
WHERE articles.id = ? AND articles.writer_id IS NOT NULL` through `db.Get`.
Only `id`, `title` and `writer_name` are projected; the rest of the scanned
`model.Article` stays at its Go zero value. -/
def ArticleGetWithWriterName (db : DB) (id : Int) : Except RepoError Article :=
  match (innerJoinWriters db).find?
      (fun p => p.1.id == id && p.1.writerId.isSome) with
  | some (a, w) =>
    .ok { Article.zero with id := a.id, title := a.title,
                            writerName := w.name.getD "" }
  | none => .error .notFound

/-- `ArticleGetWithWriter id`:
`SELECT articles.id AS id, articles.title AS title, writers.id AS 'writer.id',
writers.name AS 'writer.name' FROM articles INNER JOIN writers ON
writers.id = articles.writer_id WHERE articles.id = ?` through `db.Get`,
scanning the writer columns into the nested `Writer` value.  Unlike
`ArticleGetWithWriterName`, this query has no `COALESCE` on `writers.name`:
scanning a NULL name into the plain-string `Writer.Name` field fails with a
scan error (the comment on `ArticleGetWithWriterName` in the source notes
that `COALESCE` is what avoids exactly this Go-side error). -/
def ArticleGetWithWriter (db : DB) (id : Int) : Except RepoError Article :=
  match (innerJoinWriters db).find? (fun p => p.1.id == id) with
  | some (a, w) =>
    match w.name with
    | some n =>
      .ok { Article.zero with id := a.id, title := a.title,
                              writer := some { id := w.id, name := n } }
    | none => .error (.backend "Scan error: NULL writers.name into string")
  | none => .error .notFound

/-- The tags linked to one article through the `article_tags` link table. -/
def tagsOf (db : DB) (articleId : Int) : List TagRow :=
  (db.articleTags.filter (fun p => p.1 == articleId)).filterMap
    (fun p => db.tags.find? (fun t => t.id == p.2))

/-- Modelled from the spec: `TagListMapByArticleIDs ids` (the tag repository
is not under `src/`) batch-loads, in one round trip, the tags of every
article in `ids` and returns a mapping from article ID to its tag sequence.
Per the spec, an ID with no linked tags may be absent from the mapping — the
caller must treat a missing key as an empty sequence. -/
def TagListMapByArticleIDs (db : DB) (ids : List Int) : List (Int × List TagRow) :=
  (ids.filter (fun i => !(tagsOf db i).isEmpty)).map (fun i => (i, tagsOf db i))

/-- Go map indexing `m[k]` over the tag mapping: the zero value (an empty
slice) when the key is absent, never a fault. -/
def mapIndex (m : List (Int × List TagRow)) (k : Int) : List TagRow :=
  match m.find? (fun p => p.1 == k) with
  | some p => p.2
  | none => []

/-- One batch call into the Tag Association Store.  Besides the returned
mapping it yields the log of this call (the list of ID sets fetched), so the
number and arguments of tag-store round trips are observable. -/
def tagStoreBatchCall (db : DB) (ids : List Int) :
    List (Int × List TagRow) × List (List Int) :=
  (TagListMapByArticleIDs db ids, [ids])

/-- `ArticleListWithTags`: runs `SELECT id, title FROM articles` (narrow
projection — every other `model.Article` field stays at its zero value),
extracts the fetched IDs, makes one batch call to `TagListMapByArticleIDs`
with all of them, and stores `tagListMap[article.ID]` into each article's
`Tags`.  Returns the article list together with the tag-store call log. -/
def ArticleListWithTags (db : DB) : List Article × List (List Int) :=
  let articles := db.articles.map
    (fun r => { Article.zero with id := r.id, title := r.title })
  let articleIDs := articles.map (fun a => a.id)
  let (tagListMap, callLog) := tagStoreBatchCall db articleIDs
  (articles.map (fun a => { a with tags := mapIndex tagListMap a.id }), callLog)

/-! ### Concrete sample databases (used to instantiate the theorems) -/

/-- An article row with a given id and default remaining columns. -/
def sampleRow (i : Int) : ArticleRow :=
  { id := i, title := "", body := "", created := 0, updated := 0, writerId := none }

/-- An empty database. -/
def dbEmpty : DB :=
  { articles := [], writers := [], tags := [], articleTags := [], nextId := 1 }

/-- A database holding articles with ids 1..15 (the spec's pagination
example). -/
def db15 : DB :=
  { articles := [sampleRow 1, sampleRow 2, sampleRow 3, sampleRow 4, sampleRow 5,
                 sampleRow 6, sampleRow 7, sampleRow 8, sampleRow 9, sampleRow 10,
                 sampleRow 11, sampleRow 12, sampleRow 13, sampleRow 14, sampleRow 15],
    writers := [], tags := [], articleTags := [], nextId := 16 }

/-- A database with writers: article 1 links writer 7 (empty stored name),
article 2 has no writer, article 3 links writer 8 (NULL stored name). -/
def dbWriters : DB :=
  { articles := [{ sampleRow 1 with writerId := some 7 }, sampleRow 2,
                 { sampleRow 3 with writerId := some 8 }],
    writers := [{ id := 7, name := some "" }, { id := 8, name := none }],
    tags := [], articleTags := [], nextId := 4 }

/-- A database with two articles, only the first carrying tags. -/
def dbTags : DB :=
  { articles := [sampleRow 1, sampleRow 2],
    writers := [],
    tags := [{ id := 10, name := "go" }, { id := 11, name := "db" }],
    articleTags := [(1, 10), (1, 11)], nextId := 3 }

/-- The narrow projection `SELECT id, title` scanned into a fresh
`model.Article` value: only id and title populated. -/
def listProj (r : ArticleRow) : Article :=
  { Article.zero with id := r.id, title := r.title }

/-- The projection built by `ArticleGetWithWriterName` from a matched join
row: id, title, and the coalesced writer name populated. -/
def nameProj (a : ArticleRow) (w : WriterRow) : Article :=
  { Article.zero with id := a.id, title := a.title,
                      writerName := w.name.getD "" }

/-- The projection built by `ArticleGetWithWriter` from a matched join row
whose writer name is non-NULL: id, title, and the nested writer populated. -/
def writerProj (a : ArticleRow) (w : WriterRow) (n : String) : Article :=
  { Article.zero with id := a.id, title := a.title,
                      writer := some { id := w.id, name := n } }

/-- A database whose writers all carry non-NULL names: article 1 links
writer 7 (name `"w"`), article 2 has no writer. -/
def dbWritersNN : DB :=
  { articles := [{ sampleRow 1 with writerId := some 7 }, sampleRow 2],
    writers := [{ id := 7, name := some "w" }],
    tags := [], articleTags := [], nextId := 3 }

/-- A sample update payload: id 1, fresh title and body. -/
def sampleUpdate : Article :=
  { Article.zero with id := 1, title := "t", body := "b" }

/-! ### Theorems -/

/-- C5: every mutating operation (`ArticleCreate`, `ArticleUpdate`,
`ArticleDelete`) rolls back on a statement failure — the database state is
unchanged and the backend error is returned unwrapped — and the state is
mutated only when both the statement and the commit succeed. -/
theorem mutation_transaction_spec (db : DB) (now : Int) (a : Article)
    (id : Int) (e : String) (o : TxOutcome) (h : o.execErr = some e) :
    ((ArticleCreate db now a o).1 = db ∧
      (ArticleCreate db now a o).2.2 = .error (.backend e)) ∧
    ((ArticleUpdate db now a o).1 = db ∧
      (ArticleUpdate db now a o).2.2 = .error (.backend e)) ∧
    ((ArticleDelete db id o).1 = db ∧
      (ArticleDelete db id o).2 = some (.backend e)) ∧
    (∀ o2 : TxOutcome, (o2.execErr = none ∧ o2.commitErr = none) ∨
      ((ArticleCreate db now a o2).1 = db ∧
        (ArticleUpdate db now a o2).1 = db ∧
        (ArticleDelete db id o2).1 = db)) := by
  obtain ⟨ex, cm⟩ := o
  cases h
  refine ⟨?_, ?_, ?_, ?_⟩
  · exact ⟨rfl, rfl⟩
  · exact ⟨rfl, rfl⟩
  · exact ⟨rfl, rfl⟩
  · intro o2
    obtain ⟨ex2, cm2⟩ := o2
    cases ex2 with
    | some e2 => exact Or.inr ⟨rfl, rfl, rfl⟩
    | none =>
      cases cm2 with
      | some e2 => exact Or.inr ⟨rfl, rfl, rfl⟩
      | none => exact Or.inl ⟨rfl, rfl⟩

/-- Witness for C5 at concrete inputs. -/
theorem mutation_transaction_spec_witness :
    (ArticleCreate dbTags 7 Article.zero ⟨some "boom", none⟩).1 = dbTags ∧
    (ArticleUpdate dbTags 7 Article.zero ⟨some "boom", none⟩).2.2 =
      .error (.backend "boom") ∧
    (ArticleDelete dbTags 1 ⟨some "boom", none⟩).2 = some (.backend "boom") := by
  have h := mutation_transaction_spec dbTags 7 Article.zero 1 "boom"
    ⟨some "boom", none⟩ rfl
  exact ⟨h.1.1, h.2.1.2, h.2.2.1.2⟩

/-- C7: `ArticleDelete` succeeds whether or not a row with the given id
exists — deleting a nonexistent id leaves the table unchanged (zero rows
affected) and reports no error — and after a successful delete,
`ArticleGetByID` on the same id yields `NotFound`. -/
theorem ArticleDelete_then_GetByID (db : DB) (id : Int) :
    (ArticleDelete db id ⟨none, none⟩).2 = none ∧
    ArticleGetByID (ArticleDelete db id ⟨none, none⟩).1 id = .error .notFound ∧
    ((∀ a ∈ db.articles, a.id ≠ id) → (ArticleDelete db id ⟨none, none⟩).1 = db) := by
  have hred : (ArticleDelete db id ⟨none, none⟩).1 =
      { db with articles := db.articles.filter (fun r => r.id ≠ id) } := rfl
  refine ⟨rfl, ?_, ?_⟩
  · rw [hred]
    unfold ArticleGetByID
    have h : ((db.articles.filter (fun r => r.id ≠ id)).find?
        (fun a => a.id == id)) = none := by
      rw [List.find?_eq_none]
      intro x hx
      have hne := (List.mem_filter.mp hx).2
      simp only [decide_eq_true_eq] at hne
      simp [hne]
    rw [h]
  · intro h
    rw [hred]
    have hfil : db.articles.filter (fun r => r.id ≠ id) = db.articles := by
      rw [List.filter_eq_self]
      intro x hx
      simpa using h x hx
    rw [hfil]

/-- Witness for C7 at a concrete database and id. -/
theorem ArticleDelete_then_GetByID_witness :
    ArticleGetByID (ArticleDelete dbTags 1 ⟨none, none⟩).1 1 = .error .notFound ∧
    (ArticleDelete dbTags 99 ⟨none, none⟩).1 = dbTags := by
  refine ⟨(ArticleDelete_then_GetByID dbTags 1).2.1, ?_⟩
  exact (ArticleDelete_then_GetByID dbTags 99).2.2 (by decide)

/-- C8: `ArticleDelete` returns the value of `tx.Commit()`, so a failing
commit is surfaced as an error, whereas `ArticleCreate` and `ArticleUpdate`
discard the commit result and report success — the statement result and a
nil error — even when the commit fails. -/
theorem commit_result_handling (db : DB) (now : Int) (a : Article)
    (id : Int) (e : String) :
    (ArticleDelete db id ⟨none, some e⟩).2 = some (.backend e) ∧
    (ArticleCreate db now a ⟨none, some e⟩).2.2 =
      .ok { lastInsertId := db.nextId, rowsAffected := 1 } ∧
    (ArticleUpdate db now a ⟨none, some e⟩).2.2 =
      .ok { lastInsertId := 0,
            rowsAffected :=
              (db.articles.filter (fun r => r.id == a.id)).length } :=
  ⟨rfl, rfl, rfl⟩

/-- C9: `ArticleCreate` overwrites the caller's `Created` and `Updated`
fields and `ArticleUpdate` the caller's `Updated` field with the stamp taken
before the statement runs, on every path — in particular the overwrite is
not undone when the statement fails and an error is returned. -/
theorem caller_struct_mutation (db : DB) (now : Int) (a : Article)
    (e : String) (o : TxOutcome) :
    (ArticleCreate db now a o).2.1 = { a with created := now, updated := now } ∧
    (ArticleUpdate db now a o).2.1 = { a with updated := now } ∧
    (ArticleCreate db now a ⟨some e, o.commitErr⟩).2.2 = .error (.backend e) ∧
    (ArticleUpdate db now a ⟨some e, o.commitErr⟩).2.2 = .error (.backend e) := by
  obtain ⟨ex, cm⟩ := o
  cases ex <;> cases cm <;> exact ⟨rfl, rfl, rfl, rfl⟩

/-- In a descending-sorted list, any element left out of the `take n` prefix
has an id no larger than every id kept in the prefix. -/
theorem mem_take_ge_of_sorted (l : List ArticleRow) (hl : l.Pairwise idDesc)
    (n : Nat) (a : ArticleRow) (ha : a ∈ l) (hnot : a ∉ l.take n) :
    ∀ b ∈ l.take n, a.id ≤ b.id := by
  intro b hb
  have hsplit : l.take n ++ l.drop n = l := List.take_append_drop n l
  have hsort2 : (l.take n ++ l.drop n).Pairwise idDesc := by
    rw [hsplit]
    exact hl
  have hpw := List.pairwise_append.mp hsort2
  have hmem2 : a ∈ l.take n ++ l.drop n := by
    rw [hsplit]
    exact ha
  have hdrop : a ∈ l.drop n := by
    rcases List.mem_append.mp hmem2 with h | h
    · exact absurd h hnot
    · exact h
  exact hpw.2.2 b hb a hdrop

/-- C2: `ArticleListByCursor` returns at most 10 articles, all with id
strictly below the effective cursor, in descending id order; a cursor ≤ 0 is
substituted with `math.MaxInt32`, so it behaves exactly like passing
`math.MaxInt32` (first page, highest ids first); no matching row yields the
empty list rather than an error; whenever at most 10 rows match, every
matching row appears in the result; and any matching row left out of the
result has an id no larger than every returned id — the result is the ten
largest matching ids, descending. -/
theorem ArticleListByCursor_spec (db : DB) (cursor : Int) :
    (ArticleListByCursor db cursor).length ≤ 10 ∧
    (∀ a ∈ ArticleListByCursor db cursor, a.id < effectiveCursor cursor) ∧
    (ArticleListByCursor db cursor).Sorted idDesc ∧
    (cursor ≤ 0 → ArticleListByCursor db cursor = ArticleListByCursor db maxInt32) ∧
    ((∀ a ∈ db.articles, ¬ a.id < effectiveCursor cursor) →
      ArticleListByCursor db cursor = []) ∧
    ((db.articles.filter (fun a => a.id < effectiveCursor cursor)).length ≤ 10 →
      ∀ a ∈ db.articles, a.id < effectiveCursor cursor →
        a ∈ ArticleListByCursor db cursor) ∧
    (∀ a ∈ db.articles, a.id < effectiveCursor cursor →
      a ∉ ArticleListByCursor db cursor →
        ∀ b ∈ ArticleListByCursor db cursor, a.id ≤ b.id) := by
  refine ⟨?_, ?_, ?_, ?_, ?_, ?_, ?_⟩
  · simp only [ArticleListByCursor, List.length_take]
    exact min_le_left _ _
  · intro a ha
    have h1 : a ∈ (db.articles.filter
        (fun x => x.id < effectiveCursor cursor)).insertionSort idDesc :=
      (List.take_sublist _ _).mem ha
    have h2 := (List.mem_insertionSort idDesc).mp h1
    have h3 := (List.mem_filter.mp h2).2
    simpa using h3
  · exact List.Pairwise.sublist (List.take_sublist _ _)
      (List.sorted_insertionSort idDesc _)
  · intro h
    have h1 : effectiveCursor cursor = maxInt32 := if_pos h
    have h2 : effectiveCursor maxInt32 = maxInt32 := if_neg (by norm_num [maxInt32])
    simp only [ArticleListByCursor, h1, h2]
  · intro h
    have hfil : db.articles.filter (fun a => a.id < effectiveCursor cursor) = [] :=
      List.filter_eq_nil_iff.mpr (fun a ha => by simpa using h a ha)
    simp [ArticleListByCursor, hfil, List.insertionSort]
  · intro hlen a ha hlt
    have hmem : a ∈ db.articles.filter (fun x => x.id < effectiveCursor cursor) :=
      List.mem_filter.mpr ⟨ha, by simpa using hlt⟩
    have hperm := List.perm_insertionSort idDesc
      (db.articles.filter (fun x => x.id < effectiveCursor cursor))
    have hlen' : ((db.articles.filter
        (fun x => x.id < effectiveCursor cursor)).insertionSort idDesc).length ≤ 10 := by
      rw [hperm.length_eq]
      exact hlen
    rw [ArticleListByCursor, List.take_of_length_le hlen']
    exact (List.mem_insertionSort idDesc).mpr hmem
  · intro a ha hlt hnot b hb
    exact mem_take_ge_of_sorted _ (List.sorted_insertionSort idDesc _) 10 a
      ((List.mem_insertionSort idDesc).mpr
        (List.mem_filter.mpr ⟨ha, by simpa using hlt⟩)) hnot b hb

/-- Witness for C2: the spec's own pagination example (ids 1..15) —
`ListByCursor(0)` returns exactly ids `[15..6]`, `ListByCursor(6)` exactly
`[5..1]`, a left-out matching row (id 3 under cursor 0) is no larger than a
returned one, and the other hypotheses are exercised concretely. -/
theorem ArticleListByCursor_spec_witness :
    (ArticleListByCursor db15 0).length ≤ 10 ∧
    (ArticleListByCursor db15 0).map (fun a => a.id) =
      [15, 14, 13, 12, 11, 10, 9, 8, 7, 6] ∧
    (ArticleListByCursor db15 6).map (fun a => a.id) = [5, 4, 3, 2, 1] ∧
    ArticleListByCursor db15 0 = ArticleListByCursor db15 maxInt32 ∧
    ArticleListByCursor dbEmpty 5 = [] ∧
    sampleRow 3 ∈ ArticleListByCursor db15 6 ∧
    (sampleRow 3).id ≤ (sampleRow 6).id := by
  refine ⟨(ArticleListByCursor_spec db15 0).1, by decide, by decide, ?_, ?_, ?_, ?_⟩
  · exact (ArticleListByCursor_spec db15 0).2.2.2.1 (by decide)
  · exact (ArticleListByCursor_spec dbEmpty 5).2.2.2.2.1
      (by intro a ha; simp [dbEmpty] at ha)
  · exact (ArticleListByCursor_spec db15 6).2.2.2.2.2.1 (by decide)
      (sampleRow 3) (by decide) (by decide)
  · exact (ArticleListByCursor_spec db15 0).2.2.2.2.2.2
      (sampleRow 3) (by decide) (by decide) (by decide)
      (sampleRow 6) (by decide)

/-- C4: creating an article and then fetching the assigned identity returns
a row whose title and body match the input and whose `Created` timestamp
equals its `Updated` timestamp, both stamped with the store's clock at
creation time (the caller-supplied timestamps are ignored). -/
theorem ArticleCreate_then_GetByID (db : DB) (now : Int) (a : Article)
    (hfresh : ∀ r ∈ db.articles, r.id ≠ db.nextId) :
    (ArticleCreate db now a ⟨none, none⟩).2.2 =
      .ok { lastInsertId := db.nextId, rowsAffected := 1 } ∧
    ArticleGetByID (ArticleCreate db now a ⟨none, none⟩).1 db.nextId =
      .ok { id := db.nextId, title := a.title, body := a.body,
            created := now, updated := now, writerId := none } := by
  refine ⟨rfl, ?_⟩
  have hred : (ArticleCreate db now a ⟨none, none⟩).1.articles =
      db.articles ++ [{ id := db.nextId, title := a.title, body := a.body,
                        created := now, updated := now, writerId := none }] := rfl
  unfold ArticleGetByID
  rw [hred, List.find?_append]
  have hnone : db.articles.find? (fun r => r.id == db.nextId) = none := by
    rw [List.find?_eq_none]
    intro x hx
    simpa using hfresh x hx
  rw [hnone]
  simp

/-- Witness for C4: create into the empty database and read id 1 back. -/
theorem ArticleCreate_then_GetByID_witness :
    ArticleGetByID (ArticleCreate dbEmpty 5 Article.zero ⟨none, none⟩).1 1 =
      .ok { id := 1, title := "", body := "", created := 5, updated := 5,
            writerId := none } :=
  (ArticleCreate_then_GetByID dbEmpty 5 Article.zero
    (by intro r hr; simp [dbEmpty] at hr)).2

/-- C6: a successful `ArticleUpdate` rewrites exactly the matching row's
title, body and `Updated` timestamp; the row's id, `Created` timestamp and
writer linkage are unchanged, non-matching rows and the writers table are
untouched, and `Updated` never moves backwards when the statement's stamp
is at or after the row's previous `Updated` value. -/
theorem ArticleUpdate_frame (db : DB) (now : Int) (a : Article)
    (i : Nat) (r : ArticleRow) (hr : db.articles[i]? = some r) :
    ((ArticleUpdate db now a ⟨none, none⟩).1.writers = db.writers) ∧
    ((ArticleUpdate db now a ⟨none, none⟩).1.articles.length =
      db.articles.length) ∧
    (r.id ≠ a.id → (ArticleUpdate db now a ⟨none, none⟩).1.articles[i]? = some r) ∧
    (r.id = a.id →
      ∃ r', (ArticleUpdate db now a ⟨none, none⟩).1.articles[i]? = some r' ∧
        r'.id = r.id ∧ r'.created = r.created ∧ r'.writerId = r.writerId ∧
        r'.title = a.title ∧ r'.body = a.body ∧ r'.updated = now ∧
        (r.updated ≤ now → r.updated ≤ r'.updated)) := by
  have hred : (ArticleUpdate db now a ⟨none, none⟩).1.articles =
      db.articles.map (fun x =>
        if x.id == a.id then
          { x with title := a.title, body := a.body, updated := now }
        else x) := rfl
  refine ⟨rfl, ?_, ?_, ?_⟩
  · rw [hred, List.length_map]
  · intro hne
    rw [hred, List.getElem?_map, hr]
    simp [hne]
  · intro heq
    refine ⟨{ r with title := a.title, body := a.body, updated := now }, ?_,
      rfl, rfl, rfl, rfl, rfl, rfl, fun h => h⟩
    rw [hred, List.getElem?_map, hr]
    simp [heq]

/-- Witness for C6: update article 1 in a two-article database. -/
theorem ArticleUpdate_frame_witness :
    ((ArticleUpdate dbTags 7 sampleUpdate ⟨none, none⟩).1.articles[1]? =
      some (sampleRow 2)) ∧
    (∃ r', (ArticleUpdate dbTags 7 sampleUpdate ⟨none, none⟩).1.articles[0]? =
      some r' ∧
      r'.id = (sampleRow 1).id ∧ r'.created = (sampleRow 1).created ∧
      r'.writerId = (sampleRow 1).writerId ∧
      r'.title = "t" ∧ r'.body = "b" ∧ r'.updated = 7 ∧
      ((sampleRow 1).updated ≤ 7 → (sampleRow 1).updated ≤ r'.updated)) := by
  refine ⟨?_, ?_⟩
  · exact (ArticleUpdate_frame dbTags 7 _ 1 (sampleRow 2) rfl).2.2.1 (by decide)
  · exact (ArticleUpdate_frame dbTags 7 _ 0 (sampleRow 1) rfl).2.2.2 rfl

/-- Indexing the batch-loaded tag map at any requested id yields exactly that
article's linked tags; in particular an id with no tags (absent from the
map) yields the empty list. -/
theorem mapIndex_TagListMapByArticleIDs (db : DB) (ids : List Int) (id : Int)
    (h : id ∈ ids) :
    mapIndex (TagListMapByArticleIDs db ids) id = tagsOf db id := by
  by_cases hemp : tagsOf db id = []
  · have hfind : (TagListMapByArticleIDs db ids).find? (fun p => p.1 == id) = none := by
      rw [List.find?_eq_none]
      intro p hp
      simp only [TagListMapByArticleIDs, List.mem_map, List.mem_filter] at hp
      obtain ⟨i, ⟨_, hne⟩, rfl⟩ := hp
      simp only [beq_iff_eq]
      intro hEq
      rw [hEq, hemp] at hne
      simp at hne
    simp [mapIndex, hfind, hemp]
  · have hmem : (id, tagsOf db id) ∈ TagListMapByArticleIDs db ids := by
      simp only [TagListMapByArticleIDs, List.mem_map, List.mem_filter]
      exact ⟨id, ⟨h, by simp [hemp]⟩, rfl⟩
    cases hfind : (TagListMapByArticleIDs db ids).find? (fun p => p.1 == id) with
    | none =>
      have := List.find?_eq_none.mp hfind _ hmem
      simp at this
    | some p =>
      have hkey : p.1 = id := by simpa using List.find?_some hfind
      have hval : p.2 = tagsOf db p.1 := by
        have hp := List.mem_of_find?_eq_some hfind
        simp only [TagListMapByArticleIDs, List.mem_map, List.mem_filter] at hp
        obtain ⟨i, _, rfl⟩ := hp
        rfl
      simp [mapIndex, hfind, hval, hkey]

/-- C1: `ArticleListWithTags` makes exactly one batch call to the tag store,
passing the ids of all fetched articles; each fetched article appears in the
result (same position, same count) projected to id and title only, with its
`Tags` set to its linked tags — the empty list, not a fault, when it has no
tags or its id is absent from the returned map. -/
theorem ArticleListWithTags_spec (db : DB) :
    (ArticleListWithTags db).2 = [db.articles.map (fun r => r.id)] ∧
    (ArticleListWithTags db).1.length = db.articles.length ∧
    (∀ (i : Nat) (r : ArticleRow), db.articles[i]? = some r →
      (ArticleListWithTags db).1[i]? =
        some { Article.zero with id := r.id, title := r.title,
                                 tags := tagsOf db r.id }) := by
  have hids : (db.articles.map listProj).map (fun a => a.id) =
      db.articles.map (fun r => r.id) := by
    rw [List.map_map]
    rfl
  have h2 : (ArticleListWithTags db).2 =
      [(db.articles.map listProj).map (fun a => a.id)] := rfl
  have h1 : (ArticleListWithTags db).1 =
      (db.articles.map listProj).map (fun a =>
        { a with tags := mapIndex (TagListMapByArticleIDs db
            ((db.articles.map listProj).map (fun a => a.id))) a.id }) := rfl
  refine ⟨?_, ?_, ?_⟩
  · rw [h2, hids]
  · rw [h1, List.length_map, List.length_map]
  · intro i r hr
    have hmem : r ∈ db.articles := by
      obtain ⟨hlt, hget⟩ := List.getElem?_eq_some_iff.mp hr
      exact hget ▸ List.getElem_mem hlt
    have hmemid : r.id ∈ db.articles.map (fun x => x.id) :=
      List.mem_map.mpr ⟨r, hmem, rfl⟩
    have hm := mapIndex_TagListMapByArticleIDs db
      (db.articles.map (fun x => x.id)) r.id hmemid
    rw [h1, hids, List.getElem?_map, List.getElem?_map, hr, Option.map_some',
      Option.map_some']
    show some { listProj r with tags := mapIndex (TagListMapByArticleIDs db
        (db.articles.map (fun x : ArticleRow => x.id))) (listProj r).id } = _
    rw [show (listProj r).id = r.id from rfl, hm]
    rfl

/-- Witness for C1 at a concrete database: article 1 carries two tags,
article 2 none, and the tag store is called once with ids `[1, 2]`. -/
theorem ArticleListWithTags_spec_witness :
    (ArticleListWithTags dbTags).2 = [[1, 2]] ∧
    (ArticleListWithTags dbTags).1[0]? =
      some { Article.zero with id := 1, title := "",
                               tags := [{ id := 10, name := "go" },
                                        { id := 11, name := "db" }] } ∧
    (ArticleListWithTags dbTags).1[1]? =
      some { Article.zero with id := 2, title := "", tags := [] } := by
  have h := ArticleListWithTags_spec dbTags
  refine ⟨by simpa [dbTags, sampleRow] using h.1, ?_, ?_⟩
  · have := h.2.2 0 (sampleRow 1) rfl
    simpa [dbTags, sampleRow, tagsOf] using this
  · have := h.2.2 1 (sampleRow 2) rfl
    simpa [dbTags, sampleRow, tagsOf] using this

/-- Characterization of the inner-join row set: a pair survives the join
exactly when the article and writer rows are in their tables and the
article's `writer_id` equals the writer's id (SQL equality, never satisfied
by `NULL`). -/
theorem mem_innerJoinWriters {db : DB} {a : ArticleRow} {w : WriterRow} :
    (a, w) ∈ innerJoinWriters db ↔
      a ∈ db.articles ∧ w ∈ db.writers ∧ a.writerId = some w.id := by
  simp only [innerJoinWriters, List.mem_flatMap, List.mem_map, List.mem_filter,
    Prod.mk.injEq, beq_iff_eq]
  constructor
  · rintro ⟨a', ha', w', ⟨hw', heq⟩, rfl, rfl⟩
    exact ⟨ha', hw', heq⟩
  · rintro ⟨ha, hw, heq⟩
    exact ⟨a, ha, w, ⟨hw, heq⟩, rfl, rfl⟩

/-- `List.find?` only inspects the elements of the list, so two predicates
agreeing on every element find the same result. -/
theorem find?_congr_mem {α : Type} {p q : α → Bool} :
    ∀ (l : List α), (∀ x ∈ l, p x = q x) → l.find? p = l.find? q := by
  intro l
  induction l with
  | nil => intro _; rfl
  | cons x xs ih =>
    intro h
    have hx : p x = q x := h x (List.mem_cons_self x xs)
    by_cases hq : q x = true
    · rw [List.find?_cons_of_pos _ (hx.trans hq), List.find?_cons_of_pos _ hq]
    · rw [List.find?_cons_of_neg, List.find?_cons_of_neg]
      · exact ih (fun y hy => h y (List.mem_cons_of_mem x hy))
      · simpa using hq
      · rw [hx]
        simpa using hq

/-- C3: `ArticleGetWithWriterName` yields `NotFound` when the article
matching the id has no linked writer (the inner join excludes it — the
caller never sees an empty-named article in that case); on success the
returned `WriterName` is `COALESCE(writers.name, '')`: the empty string
exactly when the stored name is NULL, and the stored string itself
otherwise — an empty string already stored is returned as-is. -/
theorem ArticleGetWithWriterName_spec (db : DB) (id : Int) :
    ((∀ a ∈ db.articles, a.id = id → ∀ w ∈ db.writers, a.writerId ≠ some w.id) →
      ArticleGetWithWriterName db id = .error .notFound) ∧
    (∀ art : Article, ArticleGetWithWriterName db id = .ok art →
      ∃ a ∈ db.articles, ∃ w ∈ db.writers,
        a.id = id ∧ a.writerId = some w.id ∧ art.writerName = w.name.getD "" ∧
        (w.name = none → art.writerName = "") ∧
        (∀ s : String, w.name = some s → art.writerName = s)) := by
  constructor
  · intro h
    have hfind : (innerJoinWriters db).find?
        (fun p => p.1.id == id && p.1.writerId.isSome) = none := by
      rw [List.find?_eq_none]
      rintro ⟨a, w⟩ hp
      obtain ⟨ha, hw, hwid⟩ := mem_innerJoinWriters.mp hp
      simp only [Bool.and_eq_true, beq_iff_eq, not_and]
      intro haid _
      exact absurd hwid (h a ha haid w hw)
    unfold ArticleGetWithWriterName
    rw [hfind]
  · intro art hart
    unfold ArticleGetWithWriterName at hart
    cases hfind : (innerJoinWriters db).find?
        (fun p => p.1.id == id && p.1.writerId.isSome) with
    | none =>
      rw [hfind] at hart
      exact Except.noConfusion hart
    | some p =>
      obtain ⟨a, w⟩ := p
      rw [hfind] at hart
      injection hart with hart2
      subst hart2
      obtain ⟨ha, hw, hwid⟩ :=
        mem_innerJoinWriters.mp (List.mem_of_find?_eq_some hfind)
      have hpred := List.find?_some hfind
      simp only [Bool.and_eq_true, beq_iff_eq] at hpred
      refine ⟨a, ha, w, hw, hpred.1, hwid, rfl, ?_, ?_⟩
      · intro hn
        show w.name.getD "" = ""
        rw [hn]
        rfl
      · intro s hs
        show w.name.getD "" = s
        rw [hs]
        rfl

/-- Witness for C3: article 2 of `dbWriters` has no linked writer, and
article 1 links writer 7 whose stored name is the empty string. -/
theorem ArticleGetWithWriterName_spec_witness :
    ArticleGetWithWriterName dbWriters 2 = .error .notFound ∧
    (∃ a ∈ dbWriters.articles, ∃ w ∈ dbWriters.writers,
      a.id = 1 ∧ a.writerId = some w.id ∧
      ({ Article.zero with id := 1 } : Article).writerName = w.name.getD "" ∧
      (w.name = none → ({ Article.zero with id := 1 } : Article).writerName = "") ∧
      (∀ s : String, w.name = some s →
        ({ Article.zero with id := 1 } : Article).writerName = s)) := by
  refine ⟨(ArticleGetWithWriterName_spec dbWriters 2).1 (by decide), ?_⟩
  exact (ArticleGetWithWriterName_spec dbWriters 1).2 _ rfl

/-- C10 counterexample: in `dbWriters`, article 3 links writer 8 whose
stored name is NULL; `ArticleGetWithWriterName` succeeds (the query's
`COALESCE` yields the empty string) while `ArticleGetWithWriter`, whose
query has no `COALESCE`, fails scanning the NULL name into the plain-string
`Writer.Name` — so the two operations do not succeed on the same ids. -/
theorem GetWithWriterName_GetWithWriter_counterexample :
    (∃ art, ArticleGetWithWriterName dbWriters 3 = .ok art) ∧
    ¬ (∃ art, ArticleGetWithWriter dbWriters 3 = .ok art) := by
  constructor
  · exact ⟨_, rfl⟩
  · rintro ⟨art, h⟩
    have h2 : (Except.error (RepoError.backend
        "Scan error: NULL writers.name into string") :
          Except RepoError Article) = .ok art := h
    exact Except.noConfusion h2

/-- C10 (amended): the success set of `ArticleGetWithWriter` is contained in
that of `ArticleGetWithWriterName` — the `writer_id IS NOT NULL` predicate
present only in the latter is implied by the inner join both queries share —
and the two success sets coincide on every database whose stored writer
names are all non-NULL; `ArticleGetWithWriterName` succeeds exactly on the
ids whose article row carries a non-null `writer_id` matching an existing
writer, while `ArticleGetWithWriter` additionally fails, with a scan error,
when the matched writer's stored name is NULL. -/
theorem GetWithWriter_refines_GetWithWriterName (db : DB) (id : Int) :
    ((∃ art, ArticleGetWithWriter db id = .ok art) →
      (∃ art, ArticleGetWithWriterName db id = .ok art)) ∧
    ((∀ w ∈ db.writers, w.name ≠ none) →
      ((∃ art, ArticleGetWithWriterName db id = .ok art) ↔
        (∃ art, ArticleGetWithWriter db id = .ok art))) ∧
    ((∃ art, ArticleGetWithWriterName db id = .ok art) ↔
      ∃ a ∈ db.articles, ∃ w ∈ db.writers, a.id = id ∧ a.writerId = some w.id) := by
  have hcong : (innerJoinWriters db).find?
      (fun p => p.1.id == id && p.1.writerId.isSome) =
        (innerJoinWriters db).find? (fun p => p.1.id == id) := by
    apply find?_congr_mem
    rintro ⟨a, w⟩ hp
    have hwid := (mem_innerJoinWriters.mp hp).2.2
    show (a.id == id && a.writerId.isSome) = (a.id == id)
    rw [hwid]
    simp
  cases hf : (innerJoinWriters db).find? (fun p => p.1.id == id) with
  | none =>
    have hname : ArticleGetWithWriterName db id = .error .notFound := by
      unfold ArticleGetWithWriterName
      rw [hcong, hf]
    have hwrit : ArticleGetWithWriter db id = .error .notFound := by
      unfold ArticleGetWithWriter
      rw [hf]
    refine ⟨?_, ?_, ?_⟩
    · rintro ⟨art, hart⟩
      rw [hwrit] at hart
      exact Except.noConfusion hart
    · intro _
      constructor
      · rintro ⟨art, hart⟩
        rw [hname] at hart
        exact Except.noConfusion hart
      · rintro ⟨art, hart⟩
        rw [hwrit] at hart
        exact Except.noConfusion hart
    · constructor
      · rintro ⟨art, hart⟩
        rw [hname] at hart
        exact Except.noConfusion hart
      · rintro ⟨a, ha, w, hw, hid, hwid⟩
        have hmem : (a, w) ∈ innerJoinWriters db :=
          mem_innerJoinWriters.mpr ⟨ha, hw, hwid⟩
        have := List.find?_eq_none.mp hf _ hmem
        simp [hid] at this
  | some p =>
    obtain ⟨a, w⟩ := p
    obtain ⟨ha, hw, hwid⟩ :=
      mem_innerJoinWriters.mp (List.mem_of_find?_eq_some hf)
    have hpred := List.find?_some hf
    simp only [beq_iff_eq] at hpred
    have hname : ∃ art, ArticleGetWithWriterName db id = .ok art := by
      refine ⟨nameProj a w, ?_⟩
      unfold ArticleGetWithWriterName
      rw [hcong, hf]
      rfl
    refine ⟨fun _ => hname, ?_, ?_⟩
    · intro hnn
      refine ⟨fun _ => ?_, fun _ => hname⟩
      cases hn : w.name with
      | none => exact absurd hn (hnn w hw)
      | some n =>
        refine ⟨writerProj a w n, ?_⟩
        unfold ArticleGetWithWriter
        rw [hf]
        simp only [hn]
        rfl
    · exact ⟨fun _ => ⟨a, ha, w, hw, hpred, hwid⟩, fun _ => hname⟩

/-- Witness for amended C10: in `dbWritersNN` (all stored names non-NULL)
the two success sets coincide at id 1, the containment is exercised there,
and in `dbWriters` id 3's success of the name-coalescing query follows the
linked-writer characterization. -/
theorem GetWithWriter_refines_GetWithWriterName_witness :
    (∃ art, ArticleGetWithWriterName dbWritersNN 1 = .ok art) ∧
    ((∃ art, ArticleGetWithWriterName dbWritersNN 1 = .ok art) ↔
      (∃ art, ArticleGetWithWriter dbWritersNN 1 = .ok art)) ∧
    ((∃ art, ArticleGetWithWriterName dbWriters 3 = .ok art) ↔
      ∃ a ∈ dbWriters.articles, ∃ w ∈ dbWriters.writers,
        a.id = 3 ∧ a.writerId = some w.id) := by
  refine ⟨?_, ?_, ?_⟩
  · exact (GetWithWriter_refines_GetWithWriterName dbWritersNN 1).1 ⟨_, rfl⟩
  · exact (GetWithWriter_refines_GetWithWriterName dbWritersNN 1).2.1 (by decide)
  · exact (GetWithWriter_refines_GetWithWriterName dbWriters 3).2.2

end GoTechBlog
